import Mathlib

/-!
Verification development for the blocktube object-filtering engine.

The rule compiler (utils.compileRegex, utils.compileAll) is embedded from
src/src/scripts/content_script.js (background part).  The injected filtering
engine (ObjectFilter, transformToRegExp, parseTime, getObjectByPath,
flattenRuns) is not part of the source tree; those definitions are modelled
from the specification, constrained by the unit and integration tests that
are part of the source tree.
-/

set_option maxRecDepth 4000

mutual

/-- A JSON-shaped document value, mirroring the arbitrary nested
mapping/array/primitive structure the engine traverses.  Arrays and objects
are their own mutual inductives so that all traversals are structurally
recursive and reduce in the kernel. -/
inductive JsVal where
  | str : String → JsVal
  | num : Int → JsVal
  | bool : Bool → JsVal
  | null : JsVal
  | arr : JsArr → JsVal
  | obj : JsObj → JsVal

/-- A JS array of values. -/
inductive JsArr where
  | nil : JsArr
  | cons : JsVal → JsArr → JsArr

/-- A JS object: an ordered list of key/value fields. -/
inductive JsObj where
  | nil : JsObj
  | cons : String → JsVal → JsObj → JsObj

end

/-- Whitespace as recognised by JavaScript String.prototype.trim (the subset
relevant to filter entries). -/
def jsWhitespace (c : Char) : Bool :=
  c = ' ' || c = '\t' || c = '\n' || c = '\r' || c = '\x0b' || c = '\x0c' || c = '\xa0'

/-- Model of JavaScript String.prototype.trim. -/
def jsTrim (s : String) : String :=
  String.mk (((s.data.dropWhile (fun c => jsWhitespace c)).reverse.dropWhile
    (fun c => jsWhitespace c)).reverse)

/-- Model of x.startsWith('//') in utils.compileRegex: the raw (untrimmed)
entry begins with two slashes. -/
def isCommentEntry (x : String) : Bool :=
  decide (x.data.take 2 = ['/', '/'])

/-- The skip/dedup loop of utils.compileRegex: entries that are empty or
start with '//' are skipped (check on the raw entry), remaining entries are
trimmed and deduplicated by trimmed text, preserving first-seen order.
The second argument is the 'seen' set accumulator. -/
def skipDedupGo : List String → List String → List String
  | [], _ => []
  | x :: rest, seen =>
    if x = "" then skipDedupGo rest seen
    else if isCommentEntry x then skipDedupGo rest seen
    else
      let t := jsTrim x
      if t ∈ seen then skipDedupGo rest seen
      else t :: skipDedupGo rest (t :: seen)

/-- Entries of a raw rule list that survive skipping and deduplication,
already trimmed (the `filtered` array of utils.compileRegex). -/
def skipDedup (es : List String) : List String := skipDedupGo es []

/-- JavaScript line terminators, which `.` in a regex does not match. -/
def lineTerminator (c : Char) : Bool :=
  c = '\n' || c = '\r' || c = '\u2028' || c = '\u2029'

/-- Split a character list at its last '/' character: returns the characters
before and after that slash, or none when no slash occurs.  This captures
the greedy match of the first group of /^\x2f(.*)\x2f(.*)$/. -/
def splitLastSlash : List Char → Option (List Char × List Char)
  | [] => none
  | c :: rest =>
    match splitLastSlash rest with
    | some (a, b) => some (c :: a, b)
    | none => if c = '/' then some ([], rest) else none

/-- Model of rawRegexPattern.exec(v) for rawRegexPattern = /^\x2f(.*)\x2f(.*)$/:
the whole entry must consist of a leading slash, a (greedy) pattern part, a
further slash and a flags part, with no line terminators anywhere (JS `.`
does not match line terminators).  Returns (pattern, flags) on success. -/
def rawRegexExec (v : String) : Option (String × String) :=
  if v.data.any (fun c => lineTerminator c) then none
  else
    match v.data with
    | '/' :: rest =>
      match splitLastSlash rest with
      | some (a, b) => some (String.mk a, String.mk b)
      | none => none
    | _ => none

/-- The characters replaced by v.replace(/[\x5c^$*+?.()|[\x5d\x7b\x7d]/g, ...)
in the keyword branch of utils.compileRegex. -/
def regexMeta (c : Char) : Bool :=
  c = '\\' || c = '^' || c = '$' || c = '*' || c = '+' || c = '?' || c = '.' ||
  c = '(' || c = ')' || c = '|' || c = '[' || c = ']' || c = '\x7b' || c = '\x7d'

/-- Escape every regex metacharacter of a keyword entry with a backslash. -/
def escapeRegExp (s : String) : String :=
  String.mk (s.data.foldr (fun c acc => (if regexMeta c then ['\\', c] else [c]) ++ acc) [])

/-- The unicodeBoundry character-class string of the background script,
written out character by character. -/
def unicodeBoundry : String := String.mk
  ['[', ' ', '\n', '\r', '\t', '!', '@', '#', '$', '%', '^', '&', '*', '(', ')', '_',
   '\\', '-', '=', '+', '\\', '[', '\\', ']', '\\', '\\', '\\', '|', ';', ':', '\x27',
   '"', ',', '\\', '.', '\\', '/', '<', '>', '\\', '?', '\x60', '~', ':', ']', '+']

/-- The idTypes set of the background script. -/
def idTypes : List String := ["channelId", "videoId"]

/-- Per-entry compilation of utils.compileRegex: identifier categories become
an exact anchored pattern, entries in raw-regex form are split verbatim, and
all other entries are escaped and boundary-wrapped case-insensitively. -/
def compileEntry (type : String) (v : String) : String × String :=
  if idTypes.contains type then ("^" ++ v ++ "$", "")
  else
    match rawRegexExec v with
    | some pf => pf
    | none =>
      ("(^|" ++ unicodeBoundry ++ ")(" ++ escapeRegExp v ++ ")(" ++ unicodeBoundry ++ "|$)", "i")

/-- utils.compileRegex from the background script.  A non-array input is
modelled as `none` and yields `none` (UNCHANGED); the single-empty-string
input is the clear-all signal and yields the empty list; otherwise the
skip/dedup loop runs and every surviving entry is compiled. -/
def compileRegex (entries : Option (List String)) (type : String) :
    Option (List (String × String)) :=
  match entries with
  | none => none
  | some es =>
    if es = [""] then some []
    else some ((skipDedup es).map (compileEntry type))

/-- Second definition for claim C1, following the specification's words: for
identifier categories the pair is (caret value dollar, empty flags); an entry
of the form slash-pattern-slash-flags keeps pattern and flags verbatim; any
other entry is metacharacter-escaped and wrapped between boundary
alternatives with the case-insensitive flag. -/
def c1SpecEntry (category : String) (v : String) : String × String :=
  if category = "videoId" ∨ category = "channelId" then ("^" ++ v ++ "$", "")
  else
    match rawRegexExec v with
    | some pf => pf
    | none =>
      ("(^|" ++ unicodeBoundry ++ ")(" ++ escapeRegExp v ++ ")(" ++ unicodeBoundry ++ "|$)", "i")

/-! ### Config compilation (utils.compileAll, background script)

A raw category value is `some entries` when the stored value is an array of
strings and `none` when the key is absent or holds a non-array value (both
make compileRegex return UNCHANGED).  The opaque passthrough fields are
modelled as optional JsVal. -/

/-- The filterData member of the raw (uncompiled) stored config. -/
structure RawFilterData where
  videoId : Option (List String)
  channelId : Option (List String)
  channelName : Option (List String)
  title : Option (List String)
  comment : Option (List String)
  description : Option (List String)
  vidLength : Option JsVal
  javascript : Option JsVal
  percentWatchedHide : Option JsVal

/-- The raw stored config handed to utils.compileAll. -/
structure RawConfig where
  filterData : RawFilterData
  options : JsVal

/-- The filterData member of the compiled config built by utils.compileAll.
The source builds it as an empty object literal and assigns only the six
regex categories (when compileRegex returned a value) plus vidLength and
javascript; percentWatchedHide is never assigned, which the model records as
a field that is always `none`. -/
structure CompiledFilterData where
  videoId : Option (List (String × String))
  channelId : Option (List (String × String))
  channelName : Option (List (String × String))
  title : Option (List (String × String))
  comment : Option (List (String × String))
  description : Option (List (String × String))
  vidLength : Option JsVal
  javascript : Option JsVal
  percentWatchedHide : Option JsVal

/-- The compiled config returned by utils.compileAll. -/
structure CompiledStorage where
  filterData : CompiledFilterData
  options : JsVal

/-- utils.compileAll from the background script: compiles each of the six
regex categories, copies vidLength and javascript, reuses the options object
unchanged, and assigns nothing else. -/
def compileAll (data : RawConfig) : CompiledStorage :=
  ⟨⟨compileRegex data.filterData.videoId "videoId",
    compileRegex data.filterData.channelId "channelId",
    compileRegex data.filterData.channelName "channelName",
    compileRegex data.filterData.title "title",
    compileRegex data.filterData.comment "comment",
    compileRegex data.filterData.description "description",
    data.filterData.vidLength,
    data.filterData.javascript,
    none⟩,
   data.options⟩

/-! ### transformToRegExp (modelled)

Modelled from the spec: inject.js (not under src/) turns each compiled
(pattern, flags) pair into a RegExp; section 7 of the spec requires a
malformed pattern to be caught, logged and dropped while the other entries
still compile, and the unit tests show the constructed matcher has the
global flag removed from its flag string. -/

/-- A constructed pattern matcher: the surviving pattern text together with
its effective flag string. -/
structure Matcher where
  pattern : String
  flags : String
deriving DecidableEq

/-- Well-formedness scan standing in for JS RegExp syntax checking: groups
and character classes must be balanced (a backslash escapes the next
character).  The arguments are remaining input, open-group depth, and
whether the scan is inside a character class. -/
def regexScanOk : List Char → Nat → Bool → Bool
  | [], depth, inClass => (depth == 0) && !inClass
  | c :: rest, depth, inClass =>
    if c = '\\' then
      match rest with
      | [] => false
      | _ :: rest2 => regexScanOk rest2 depth inClass
    else if inClass then
      if c = ']' then regexScanOk rest depth false
      else regexScanOk rest depth inClass
    else if c = '[' then regexScanOk rest depth true
    else if c = '(' then regexScanOk rest (depth + 1) inClass
    else if c = ')' then
      match depth with
      | 0 => false
      | d + 1 => regexScanOk rest d inClass
    else regexScanOk rest depth inClass

/-- Modelled from the spec: validity of a user-supplied regex pattern (the
condition under which RegExp construction does not throw). -/
def regexSyntaxOk (s : String) : Bool := regexScanOk s.data 0 false

/-- Remove the global flag from a flag string (a matcher must carry no
cross-call matching state). -/
def removeGlobalFlag (f : String) : String :=
  String.mk (f.data.filter (fun c => c ≠ 'g'))

/-- Modelled from the spec: construction of one matcher from a compiled
(pattern, flags) pair.  A malformed pattern throws inside the try/catch and
leaves the entry unusable (`none`); a valid one yields a matcher whose flag
string has the global flag removed. -/
def toMatcher (p : String × String) : Option Matcher :=
  if regexSyntaxOk p.1 then some ⟨p.1, removeGlobalFlag p.2⟩ else none

/-- Modelled from the spec: transformToRegExp over one category list; each
entry is converted independently in place (a failed entry stays in the list
as an unusable hole, as the unit test observes). -/
def transformCategory : List (String × String) → List (Option Matcher)
  | [] => []
  | e :: rest => toMatcher e :: transformCategory rest

/-! ### Path resolver (modelled)

Modelled from the spec: getObjectByPath of inject.js (not under src/),
spec section 4.3. -/

/-- One segment of a path expression: a field name or a numeric bracket
index. -/
inductive Seg where
  | field : String → Seg
  | idx : Nat → Seg

mutual

/-- Modelled from the spec: resolve a (pre-split) path against a value.  A
field segment reads a mapping key; a numeric segment indexes a list; a field
segment applied to a list searches the elements in order and returns the
first successful resolution of the whole remaining path. -/
def resolvePath : JsVal → List Seg → Option JsVal
  | v, [] => some v
  | .obj fs, .field n :: rest => resolveField fs n rest
  | .arr xs, .idx i :: rest => resolveIdx xs i rest
  | .arr xs, .field n :: rest => searchArr xs (.field n :: rest)
  | _, _ => none

/-- Field lookup step of the path resolver. -/
def resolveField : JsObj → String → List Seg → Option JsVal
  | .nil, _, _ => none
  | .cons k v tl, n, rest => if k = n then resolvePath v rest else resolveField tl n rest

/-- Numeric index step of the path resolver; out-of-range indices fail. -/
def resolveIdx : JsArr → Nat → List Seg → Option JsVal
  | .nil, _, _ => none
  | .cons x _, 0, rest => resolvePath x rest
  | .cons _ tl, i + 1, rest => resolveIdx tl i rest

/-- Search-within-a-list step: the first element for which the remaining
path resolves wins. -/
def searchArr : JsArr → List Seg → Option JsVal
  | .nil, _ => none
  | .cons x tl, p =>
    match resolvePath x p with
    | some r => some r
    | none => searchArr tl p

end

/-- Modelled from the spec: getObjectByPath with the empty-path and
missing-root conventions (the default value is modelled as `none`). -/
def getByPath (v : JsVal) (p : List Seg) : Option JsVal :=
  match p with
  | [] => none
  | _ => resolvePath v p

/-- Key lookup in a JS object. -/
def objLookup : JsObj → String → Option JsVal
  | .nil, _ => none
  | .cons k v tl, n => if k = n then some v else objLookup tl n

/-- Text contents of a runs array: the text field of each segment that has a
string one; other segments are skipped. -/
def runsTexts : JsArr → List String
  | .nil => []
  | .cons x tl =>
    match x with
    | .obj fs =>
      match objLookup fs "text" with
      | some (.str s) => s :: runsTexts tl
      | _ => runsTexts tl
    | _ => runsTexts tl

/-- Modelled from the spec: flattenRuns of inject.js.  A value with a
simpleText field yields that field; otherwise a runs list is flattened to
its segments' texts joined by single spaces; anything else passes through
unchanged. -/
def flattenRuns (v : JsVal) : JsVal :=
  match v with
  | .obj fs =>
    match objLookup fs "simpleText" with
    | some t => t
    | none =>
      match objLookup fs "runs" with
      | some (.arr xs) => .str (String.intercalate " " (runsTexts xs))
      | _ => v
  | _ => v

/-- Try candidate paths in order; the first non-missing raw result wins. -/
def firstPath (v : JsVal) : List (List Seg) → Option JsVal
  | [] => none
  | p :: rest =>
    match getByPath v p with
    | some r => some r
    | none => firstPath v rest

/-- Modelled from the spec: getFlattenByPath — first non-missing candidate
path, then the text flattener. -/
def getFlattenByPath (v : JsVal) (paths : List (List Seg)) : Option JsVal :=
  (firstPath v paths).map flattenRuns

/-! ### Numeric duration parser (modelled) -/

/-- Decimal value of an all-digit character list (accumulator form);
any non-digit character fails. -/
def digitsVal : List Char → Nat → Option Nat
  | [], acc => some acc
  | c :: rest, acc =>
    if c.isDigit then digitsVal rest (acc * 10 + (c.toNat - '0'.toNat))
    else none

/-- Parse a non-empty all-digit string as a number. -/
def jsParseNum (s : List Char) : Option Nat :=
  match s with
  | [] => none
  | cs => digitsVal cs 0

/-- Split a character list on ':' separators. -/
def splitColon : List Char → List (List Char)
  | [] => [[]]
  | c :: rest =>
    let r := splitColon rest
    if c = ':' then [] :: r
    else
      match r with
      | [] => [[c]]
      | g :: gs => (c :: g) :: gs

/-- Modelled from the spec: parseTime of inject.js.  The SHORTS token yields
-2; more than three colon-separated components yield -1; otherwise every
component must be numeric and the components combine positionally to total
seconds; anything else is unparseable (NaN, modelled as `none`). -/
def parseTime (s : String) : Option Int :=
  if s = "SHORTS" then some (-2)
  else
    let parts := splitColon s.data
    if parts.length > 3 then some (-1)
    else
      match parts.mapM jsParseNum with
      | some ns => some (Int.ofNat (ns.foldl (fun acc n => acc * 60 + n) 0))
      | none => none

/-! ### Filtering engine (modelled)

Modelled from the spec: ObjectFilter of inject.js (not under src/), spec
sections 3, 4.6, 7 and 8, constrained by the unit/integration tests. -/

/-- Duration mode: block removes items inside the range, allow removes items
outside it. -/
inductive VidMode where
  | allow : VidMode
  | block : VidMode

/-- The category toggles a rule-table entry can belong to. -/
inductive ToggleKind where
  | shorts : ToggleKind
  | movies : ToggleKind
  | mixes : ToggleKind
  | trending : ToggleKind
deriving DecidableEq

/-- The extracted candidate record for one classified node (the record the
custom predicate receives). -/
structure Candidate where
  id : Option JsVal
  channelId : Option JsVal
  channelName : Option JsVal
  title : Option JsVal
  comment : Option JsVal
  description : Option JsVal
  vidLength : Option Int
  percentWatched : Option JsVal

/-- The compiled configuration as the engine consumes it: per-category
matcher lists (a matcher is an abstract string predicate, standing for a
constructed RegExp), the numeric duration range and mode, the
percent-watched threshold, the category toggles, and the optional custom
predicate with its enable flag.  A missing numeric bound (null or NaN in
the source data) is `none`. -/
structure EngineConfig where
  videoId : List (String → Bool)
  channelId : List (String → Bool)
  channelName : List (String → Bool)
  title : List (String → Bool)
  comment : List (String → Bool)
  description : List (String → Bool)
  vidLengthMin : Option Int
  vidLengthMax : Option Int
  vidLengthType : VidMode
  percentWatchedHide : Option Int
  shorts : Bool
  movies : Bool
  mixes : Bool
  trending : Bool
  enableJs : Bool
  jsFilter : Option (Candidate → String → Except Unit Bool)

/-- One rule-table entry: candidate extraction paths per comparison field
plus the category toggle this node type belongs to. -/
structure RuleEntry where
  idPaths : List (List Seg)
  channelIdPaths : List (List Seg)
  channelNamePaths : List (List Seg)
  titlePaths : List (List Seg)
  commentPaths : List (List Seg)
  descriptionPaths : List (List Seg)
  durationPaths : List (List Seg)
  percentPaths : List (List Seg)
  toggle : Option ToggleKind

/-- Extracted duration in seconds for a node: the flattened duration text,
parsed; missing or non-text duration is unparseable. -/
def extractVidLength (rule : RuleEntry) (v : JsVal) : Option Int :=
  match getFlattenByPath v rule.durationPaths with
  | some (.str t) => parseTime t
  | _ => none

/-- Build the candidate record for a node according to its rule entry:
identifiers are raw path lookups, text fields go through the flattener,
the duration goes through the numeric parser. -/
def extractCandidate (rule : RuleEntry) (v : JsVal) : Candidate :=
  ⟨firstPath v rule.idPaths,
   firstPath v rule.channelIdPaths,
   getFlattenByPath v rule.channelNamePaths,
   getFlattenByPath v rule.titlePaths,
   getFlattenByPath v rule.commentPaths,
   getFlattenByPath v rule.descriptionPaths,
   extractVidLength rule v,
   firstPath v rule.percentPaths⟩

/-- A category's matcher list matches an extracted field iff the field is a
string some matcher accepts; a missing or non-text field never matches. -/
def textMatch (ms : List (String → Bool)) (x : Option JsVal) : Bool :=
  match x with
  | some (.str s) => ms.any (fun m => m s)
  | _ => false

/-- Membership of a duration in the configured numeric range; a missing
bound is unbounded. -/
def insideRange (lo hi : Option Int) (d : Int) : Bool :=
  (match lo with | some l => decide (l ≤ d) | none => true) &&
  (match hi with | some h => decide (d ≤ h) | none => true)

/-- Duration predicate of the engine: only applies when at least one bound
is configured and the duration is parseable; block mode removes inside the
range, allow mode removes outside it. -/
def durationMatch (cfg : EngineConfig) (d : Option Int) : Bool :=
  if cfg.vidLengthMin.isNone && cfg.vidLengthMax.isNone then false
  else
    match d with
    | none => false
    | some dv =>
      match cfg.vidLengthType with
      | VidMode.block => insideRange cfg.vidLengthMin cfg.vidLengthMax dv
      | VidMode.allow => !(insideRange cfg.vidLengthMin cfg.vidLengthMax dv)

/-- Percent-watched predicate: a threshold is configured and the extracted
percentage is at least the threshold. -/
def percentMatch (cfg : EngineConfig) (x : Option JsVal) : Bool :=
  match cfg.percentWatchedHide, x with
  | some t, some (.num p) => decide (t ≤ p)
  | _, _ => false

/-- Category-toggle predicate: a toggle is enabled and the node belongs to
that category (a video node with the SHORTS duration sentinel counts as a
short). -/
def toggleMatch (cfg : EngineConfig) (rule : RuleEntry) (cand : Candidate) : Bool :=
  (cfg.shorts && (rule.toggle = some ToggleKind.shorts || cand.vidLength = some (-2))) ||
  (cfg.movies && rule.toggle = some ToggleKind.movies) ||
  (cfg.mixes && rule.toggle = some ToggleKind.mixes) ||
  (cfg.trending && rule.toggle = some ToggleKind.trending)

/-- Custom-predicate step: only when enabled and configured; an error raised
by the predicate is caught, logged and treated as no match. -/
def jsMatch (cfg : EngineConfig) (cand : Candidate) (key : String) : Bool :=
  if cfg.enableJs then
    match cfg.jsFilter with
    | some f =>
      match f cand key with
      | Except.ok b => b
      | Except.error _ => false
    | none => false
  else false

/-- Full per-node decision: any identifier/text match, the duration check,
the percent-watched check, a category toggle, or the custom predicate. -/
def matchesNode (cfg : EngineConfig) (rule : RuleEntry) (key : String) (v : JsVal) : Bool :=
  let cand := extractCandidate rule v
  textMatch cfg.videoId cand.id ||
  textMatch cfg.channelId cand.channelId ||
  textMatch cfg.channelName cand.channelName ||
  textMatch cfg.title cand.title ||
  textMatch cfg.comment cand.comment ||
  textMatch cfg.description cand.description ||
  durationMatch cfg cand.vidLength ||
  percentMatch cfg cand.percentWatched ||
  toggleMatch cfg rule cand ||
  jsMatch cfg cand key

/-- The fixed prunable-container key set (deleteAllowed): wrapper keys whose
now-empty container is removed after its contents are filtered away. -/
def prunableKeys : List String :=
  ["content", "contents", "items", "richItemRenderer", "richSectionRenderer",
   "richShelfRenderer", "shelfRenderer", "itemSectionRenderer", "gridRenderer",
   "horizontalListRenderer", "verticalListRenderer", "reelShelfRenderer",
   "expandedShelfContentsRenderer"]

/-- Whether a key belongs to the prunable-container set. -/
def prunable (k : String) : Bool := prunableKeys.contains k

/-- Structural emptiness of a container value. -/
def JsVal.isEmptyC : JsVal → Bool
  | .obj .nil => true
  | .arr .nil => true
  | _ => false

/-- Rule-table lookup by node-type key. -/
def ruleFor : List (String × RuleEntry) → String → Option RuleEntry
  | [], _ => none
  | (n, r) :: rest, k => if n = k then some r else ruleFor rest k

/-- Whether a key present on a mapping is a rule-table key whose node value
matches the configuration. -/
def ruleMatched (cfg : EngineConfig) (rules : List (String × RuleEntry))
    (k : String) (v : JsVal) : Bool :=
  match ruleFor rules k with
  | some rule => matchesNode cfg rule k v
  | none => false

mutual

/-- Modelled from the spec: the recursive traversal of ObjectFilter.  The
tree is walked depth first; subtrees are filtered before their own node is
classified, matched rule-table keys are deleted from their parent mapping,
and containers of the prunable set that became empty (and list elements
whose content was fully removed) are pruned. -/
def filterVal (cfg : EngineConfig) (rules : List (String × RuleEntry)) : JsVal → JsVal
  | .obj fs => .obj (filterFields cfg rules fs)
  | .arr xs => .arr (filterElems cfg rules xs)
  | v => v

/-- Field traversal of the filtering engine: a rule-table key whose
(already filtered) value matches is deleted; a prunable key whose value
became structurally empty is pruned; everything else is kept with its
filtered value. -/
def filterFields (cfg : EngineConfig) (rules : List (String × RuleEntry)) : JsObj → JsObj
  | .nil => .nil
  | .cons k v tl =>
    let v2 := filterVal cfg rules v
    let rest := filterFields cfg rules tl
    if ruleMatched cfg rules k v2 then rest
    else if prunable k && v2.isEmptyC && !v.isEmptyC then rest
    else .cons k v2 rest

/-- List traversal of the filtering engine: an element whose content was
fully removed by filtering is deleted from the list (index-safely),
preserving the order of the remaining elements. -/
def filterElems (cfg : EngineConfig) (rules : List (String × RuleEntry)) : JsArr → JsArr
  | .nil => .nil
  | .cons x tl =>
    let x2 := filterVal cfg rules x
    let rest := filterElems cfg rules tl
    if x2.isEmptyC && !x.isEmptyC then rest
    else .cons x2 rest

end

/-- Modelled from the spec: ObjectFilter.isDataEmpty — nothing to filter
when every matcher list is empty, no duration bound, no percent threshold,
every toggle off and no enabled custom predicate. -/
def isDataEmpty (cfg : EngineConfig) : Bool :=
  cfg.videoId.isEmpty && cfg.channelId.isEmpty && cfg.channelName.isEmpty &&
  cfg.title.isEmpty && cfg.comment.isEmpty && cfg.description.isEmpty &&
  cfg.vidLengthMin.isNone && cfg.vidLengthMax.isNone &&
  cfg.percentWatchedHide.isNone &&
  !cfg.shorts && !cfg.movies && !cfg.mixes && !cfg.trending &&
  !(cfg.enableJs && cfg.jsFilter.isSome)

/-- Key membership in a JS object. -/
def objKeyMem : JsObj → String → Bool
  | .nil, _ => false
  | .cons n _ tl, k => (n == k) || objKeyMem tl k

/-- Whether an object value still carries a given key. -/
def objHasKey (v : JsVal) (k : String) : Bool :=
  match v with
  | .obj fs => objKeyMem fs k
  | _ => false

/-! ### Rule table (modelled from the spec's rule-table vocabulary) -/

/-- Main-table entry for videoRenderer (and shape variants): id, channel,
title, description snippet, duration overlay and watched-percentage paths. -/
def videoRendererRule : RuleEntry :=
  ⟨[[Seg.field "videoId"]],
   [[Seg.field "shortBylineText", Seg.field "runs", Seg.field "navigationEndpoint",
     Seg.field "browseEndpoint", Seg.field "browseId"],
    [Seg.field "longBylineText", Seg.field "runs", Seg.field "navigationEndpoint",
     Seg.field "browseEndpoint", Seg.field "browseId"]],
   [[Seg.field "shortBylineText"], [Seg.field "longBylineText"]],
   [[Seg.field "title"]],
   [],
   [[Seg.field "detailedMetadataSnippets", Seg.field "snippetText"]],
   [[Seg.field "thumbnailOverlays", Seg.field "thumbnailOverlayTimeStatusRenderer",
     Seg.field "text"],
    [Seg.field "lengthText"]],
   [[Seg.field "thumbnailOverlays", Seg.field "thumbnailOverlayResumePlaybackRenderer",
     Seg.field "percentDurationWatched"]],
   none⟩

/-- Main-table entry for radioRenderer (mix/radio shelves): belongs to the
mixes toggle. -/
def radioRendererRule : RuleEntry :=
  ⟨[[Seg.field "videoId"]], [], [[Seg.field "shortBylineText"]], [[Seg.field "title"]],
   [], [], [], [], some ToggleKind.mixes⟩

/-- Main-table entry for movieRenderer: belongs to the movies toggle. -/
def movieRendererRule : RuleEntry :=
  ⟨[[Seg.field "videoId"]], [], [[Seg.field "shortBylineText"]], [[Seg.field "title"]],
   [], [], [], [], some ToggleKind.movies⟩

/-- Main-table entry for reelItemRenderer (short-form items): belongs to the
shorts toggle. -/
def reelItemRendererRule : RuleEntry :=
  ⟨[[Seg.field "videoId"]], [], [], [[Seg.field "headline"]],
   [], [], [], [], some ToggleKind.shorts⟩

/-- The main rule table (video-item renderers and toggle-bearing shapes). -/
def mainRules : List (String × RuleEntry) :=
  [("videoRenderer", videoRendererRule),
   ("compactVideoRenderer", videoRendererRule),
   ("gridVideoRenderer", videoRendererRule),
   ("playlistVideoRenderer", videoRendererRule),
   ("radioRenderer", radioRendererRule),
   ("movieRenderer", movieRendererRule),
   ("reelItemRenderer", reelItemRendererRule)]

/-! ### Concrete configurations and documents for the claims -/

/-- The all-off engine configuration. -/
def emptyEngineConfig : EngineConfig :=
  ⟨[], [], [], [], [], [], none, none, VidMode.block, none,
   false, false, false, false, false, none⟩

/-- A configuration whose only active rule is the duration range. -/
def durationOnlyConfig (lo hi : Option Int) (mode : VidMode) : EngineConfig :=
  ⟨[], [], [], [], [], [], lo, hi, mode, none,
   false, false, false, false, false, none⟩

/-- A configuration whose only active rule is an enabled custom predicate. -/
def jsOnlyConfig (f : Candidate → String → Except Unit Bool) : EngineConfig :=
  ⟨[], [], [], [], [], [], none, none, VidMode.block, none,
   false, false, false, false, true, some f⟩

/-- The removal decision claim C2 states for the duration rule: block mode
removes durations inside the range, allow mode removes durations outside. -/
def vidLengthDecision (lo hi : Option Int) (mode : VidMode) (d : Int) : Bool :=
  match mode with
  | VidMode.block => insideRange lo hi d
  | VidMode.allow => !(insideRange lo hi d)

/-- Wrap a node value as a document whose only key is videoRenderer. -/
def vrWrap (v : JsVal) : JsVal := JsVal.obj (JsObj.cons "videoRenderer" v JsObj.nil)

/-- A videoRenderer node carrying a duration overlay with the given text
(shape taken from the unit tests). -/
def durationVideo (t : String) : JsVal :=
  JsVal.obj (JsObj.cons "videoId" (JsVal.str "vid1")
    (JsObj.cons "thumbnailOverlays"
      (JsVal.arr (JsArr.cons
        (JsVal.obj (JsObj.cons "thumbnailOverlayTimeStatusRenderer"
          (JsVal.obj (JsObj.cons "text"
            (JsVal.obj (JsObj.cons "simpleText" (JsVal.str t) JsObj.nil)) JsObj.nil))
          JsObj.nil))
        JsArr.nil)) JsObj.nil))

/-- A small concrete search-results-like document. -/
def sampleDoc : JsVal :=
  JsVal.obj (JsObj.cons "contents"
    (JsVal.arr (JsArr.cons
      (JsVal.obj (JsObj.cons "videoRenderer"
        (JsVal.obj (JsObj.cons "videoId" (JsVal.str "dQw4w9WgXcQ")
          (JsObj.cons "title"
            (JsVal.obj (JsObj.cons "simpleText" (JsVal.str "Some Video") JsObj.nil))
            JsObj.nil))) JsObj.nil))
      (JsArr.cons (JsVal.str "token") JsArr.nil))) JsObj.nil)

/-- A second concrete document, used with the custom-predicate claim. -/
def jsSampleDoc : JsVal :=
  JsVal.obj (JsObj.cons "videoRenderer"
    (JsVal.obj (JsObj.cons "videoId" (JsVal.str "vid123")
      (JsObj.cons "title"
        (JsVal.obj (JsObj.cons "simpleText" (JsVal.str "Test") JsObj.nil))
        JsObj.nil))) JsObj.nil)

/-- The always-throwing custom predicate of the exception-handling test. -/
def throwingPredicate : Candidate → String → Except Unit Bool :=
  fun _ _ => Except.error ()


/-- Raw config exercising the percentWatchedHide passthrough for claim C5. -/
def c5Input : RawConfig :=
  ⟨⟨some [], some [], some [], some [], some [], some [],
    some JsVal.null, some (JsVal.str ""), some (JsVal.num 90)⟩,
   JsVal.obj JsObj.nil⟩

/-! ## Theorems -/

theorem compileEntry_eq_spec (category v : String) :
    compileEntry category v = c1SpecEntry category v := by
  by_cases h1 : category = "channelId" <;> by_cases h2 : category = "videoId" <;>
    simp [compileEntry, c1SpecEntry, idTypes, h1, h2, List.contains_cons]

theorem map_compileEntry_eq_spec (category : String) (l : List String) :
    l.map (compileEntry category) = l.map (c1SpecEntry category) := by
  induction l with
  | nil => rfl
  | cons x xs ih => simp [List.map_cons, compileEntry_eq_spec, ih]

example : compileRegex (some ["abc123"]) "videoId" = some [("^abc123$", "")] := by decide
example : compileRegex (some ["  padded  "]) "videoId" = some [("^padded$", "")] := by decide
example : (compileRegex (some ["duplicate", "duplicate", "unique"]) "title").map List.length
    = some 2 := by decide
example : compileRegex (some [""]) "videoId" = some [] := by decide
example : rawRegexExec "/test.*pattern/i" = some ("test.*pattern", "i") := by decide
example : compileRegex (some ["   ", "  \t  "]) "videoId" = some [("^$", "")] := by decide
example : parseTime "1:30:00" = some 5400 := by decide
example : parseTime "5:30" = some 330 := by decide
example : parseTime "SHORTS" = some (-2) := by decide
example : parseTime "1:2:3:4" = some (-1) := by decide
example : parseTime "invalid" = none := by decide

/-- C1: for every raw rule list and category, compileRegex compiles exactly
the entries surviving skipping and deduplication, each according to the
specification's three per-category rules (exact anchored identifier, verbatim
raw-regex split, or escaped boundary-wrapped case-insensitive keyword). -/
theorem blocktube_c1 (es : List String) (category : String) :
    compileRegex (some es) category
      = some ((skipDedup es).map (c1SpecEntry category)) := by
  by_cases h : es = [""]
  · subst h; rfl
  · show (if es = [""] then some [] else some ((skipDedup es).map (compileEntry category)))
        = some ((skipDedup es).map (c1SpecEntry category))
    rw [if_neg h, map_compileEntry_eq_spec]

/-- C8: a rule entry consisting entirely of whitespace is not skipped (the
skip check runs on the raw entry), trims to the empty string and, for the
identifier categories, compiles to the anchored-empty pattern. -/
theorem blocktube_c8 (x : String) (hx : x ≠ "")
    (hw : ∀ c ∈ x.data, jsWhitespace c = true)
    (category : String) (hcat : category = "videoId" ∨ category = "channelId") :
    compileRegex (some [x]) category = some [("^$", "")] := by
  have hns : ¬ [x] = [""] := by simp [hx]
  have hcomment : isCommentEntry x = false := by
    rw [isCommentEntry, decide_eq_false_iff_not]
    intro htake
    have hmem : '/' ∈ x.data := List.take_subset 2 x.data (by rw [htake]; simp)
    have := hw '/' hmem
    simp [jsWhitespace] at this
  have htrim : jsTrim x = "" := by
    unfold jsTrim
    have h1 : x.data.dropWhile (fun c => jsWhitespace c) = [] := by
      rw [List.dropWhile_eq_nil_iff]
      exact fun c hc => hw c hc
    rw [h1]
    rfl
  have hsk : skipDedup [x] = [""] := by
    unfold skipDedup skipDedupGo
    rw [if_neg hx]
    simp [hcomment, htrim, skipDedupGo]
  show (if [x] = [""] then some [] else some ((skipDedup [x]).map (compileEntry category)))
      = some [("^$", "")]
  rw [if_neg hns, hsk]
  rcases hcat with h | h <;> subst h <;> rfl

/-- C9: an entry that is non-empty and whose raw text does not start with
two slashes (for example one where whitespace precedes the slashes) is not
skipped as a comment; it contributes exactly the ordinary per-category
compilation of its trimmed text. -/
theorem blocktube_c9 (x : String) (hx : x ≠ "") (hc : isCommentEntry x = false)
    (category : String) :
    compileRegex (some [x]) category = some [compileEntry category (jsTrim x)] := by
  have hns : ¬ [x] = [""] := by simp [hx]
  have hsk : skipDedup [x] = [jsTrim x] := by
    unfold skipDedup skipDedupGo
    rw [if_neg hx]
    simp [hc, skipDedupGo]
  show (if [x] = [""] then some [] else some ((skipDedup [x]).map (compileEntry category)))
      = some [compileEntry category (jsTrim x)]
  rw [if_neg hns, hsk]
  rfl

theorem compileRegex_isSome (o : Option (List String)) (type : String) :
    (compileRegex o type).isSome = o.isSome := by
  cases o with
  | none => rfl
  | some es =>
    show (if es = [""] then some [] else some ((skipDedup es).map (compileEntry type))).isSome
        = true
    split <;> rfl

/-- C5 (counterexample): the numeric percentWatchedHide field of filterData
is present on the input but absent from the compiled output, so it is not
passed through unchanged. -/
theorem blocktube_c5_counterexample :
    c5Input.filterData.percentWatchedHide = some (JsVal.num 90) ∧
      (compileAll c5Input).filterData.percentWatchedHide = none :=
  ⟨rfl, rfl⟩

/-- C5 (amended): compileAll compiles exactly the six text categories (each
present in the output iff the regex compiler returned a list for it, i.e.
iff the input held a list), passes vidLength, the javascript source and the
options object through unchanged, and does not copy the percentWatchedHide
numeric field. -/
theorem blocktube_c5_amended (data : RawConfig) :
    ((compileAll data).filterData.videoId = compileRegex data.filterData.videoId "videoId") ∧
    ((compileAll data).filterData.channelId
        = compileRegex data.filterData.channelId "channelId") ∧
    ((compileAll data).filterData.channelName
        = compileRegex data.filterData.channelName "channelName") ∧
    ((compileAll data).filterData.title = compileRegex data.filterData.title "title") ∧
    ((compileAll data).filterData.comment = compileRegex data.filterData.comment "comment") ∧
    ((compileAll data).filterData.description
        = compileRegex data.filterData.description "description") ∧
    ((compileAll data).filterData.videoId.isSome = data.filterData.videoId.isSome) ∧
    ((compileAll data).filterData.title.isSome = data.filterData.title.isSome) ∧
    ((compileAll data).filterData.vidLength = data.filterData.vidLength) ∧
    ((compileAll data).filterData.javascript = data.filterData.javascript) ∧
    ((compileAll data).options = data.options) ∧
    ((compileAll data).filterData.percentWatchedHide = none) := by
  refine ⟨rfl, rfl, rfl, rfl, rfl, rfl, ?_, ?_, rfl, rfl, rfl, rfl⟩
  · exact compileRegex_isSome data.filterData.videoId "videoId"
  · exact compileRegex_isSome data.filterData.title "title"

/-! ### Engine lemmas -/

theorem textMatch_nil (x : Option JsVal) : textMatch [] x = false := by
  cases x with
  | none => rfl
  | some v => cases v <;> rfl

theorem percentMatch_none (cfg : EngineConfig) (h : cfg.percentWatchedHide = none)
    (x : Option JsVal) : percentMatch cfg x = false := by
  unfold percentMatch
  rw [h]

theorem durationMatch_noRange (cfg : EngineConfig) (h7 : cfg.vidLengthMin = none)
    (h8 : cfg.vidLengthMax = none) (d : Option Int) : durationMatch cfg d = false := by
  unfold durationMatch
  rw [h7, h8]
  rfl

theorem toggleMatch_off (cfg : EngineConfig)
    (h10 : cfg.shorts = false) (h11 : cfg.movies = false) (h12 : cfg.mixes = false)
    (h13 : cfg.trending = false) (rule : RuleEntry) (cand : Candidate) :
    toggleMatch cfg rule cand = false := by
  simp [toggleMatch, h10, h11, h12, h13]

theorem jsMatch_false (cfg : EngineConfig)
    (h : cfg.enableJs = false ∨ cfg.jsFilter = none)
    (cand : Candidate) (key : String) : jsMatch cfg cand key = false := by
  rcases h with h | h
  · simp [jsMatch, h]
  · cases hE : cfg.enableJs <;> simp [jsMatch, h, hE]

theorem matchesNode_false_of (cfg : EngineConfig)
    (h1 : cfg.videoId = []) (h2 : cfg.channelId = []) (h3 : cfg.channelName = [])
    (h4 : cfg.title = []) (h5 : cfg.comment = []) (h6 : cfg.description = [])
    (h7 : cfg.vidLengthMin = none) (h8 : cfg.vidLengthMax = none)
    (h9 : cfg.percentWatchedHide = none)
    (h10 : cfg.shorts = false) (h11 : cfg.movies = false) (h12 : cfg.mixes = false)
    (h13 : cfg.trending = false)
    (hjs : ∀ cand key, jsMatch cfg cand key = false)
    (rule : RuleEntry) (key : String) (v : JsVal) :
    matchesNode cfg rule key v = false := by
  simp only [matchesNode, h1, h2, h3, h4, h5, h6, textMatch_nil,
    durationMatch_noRange cfg h7 h8, percentMatch_none cfg h9,
    toggleMatch_off cfg h10 h11 h12 h13, hjs, Bool.or_false, Bool.false_or]

theorem ruleMatched_false_of (cfg : EngineConfig) (rules : List (String × RuleEntry))
    (h : ∀ rule k v, matchesNode cfg rule k v = false)
    (k : String) (v : JsVal) : ruleMatched cfg rules k v = false := by
  unfold ruleMatched
  cases ruleFor rules k with
  | none => rfl
  | some rule => exact h rule k v

mutual

theorem filterVal_id_aux (cfg : EngineConfig) (rules : List (String × RuleEntry))
    (h : ∀ rule k v, matchesNode cfg rule k v = false) :
    (v : JsVal) → filterVal cfg rules v = v
  | .str _ => rfl
  | .num _ => rfl
  | .bool _ => rfl
  | .null => rfl
  | .arr xs => by
    simp only [filterVal]
    exact congrArg JsVal.arr (filterElems_id_aux cfg rules h xs)
  | .obj fs => by
    simp only [filterVal]
    exact congrArg JsVal.obj (filterFields_id_aux cfg rules h fs)

theorem filterFields_id_aux (cfg : EngineConfig) (rules : List (String × RuleEntry))
    (h : ∀ rule k v, matchesNode cfg rule k v = false) :
    (fs : JsObj) → filterFields cfg rules fs = fs
  | .nil => rfl
  | .cons k v tl => by
    have hv := filterVal_id_aux cfg rules h v
    have htl := filterFields_id_aux cfg rules h tl
    simp only [filterFields, hv, htl, ruleMatched_false_of cfg rules h]
    cases hp : v.isEmptyC <;> simp [hp]

theorem filterElems_id_aux (cfg : EngineConfig) (rules : List (String × RuleEntry))
    (h : ∀ rule k v, matchesNode cfg rule k v = false) :
    (xs : JsArr) → filterElems cfg rules xs = xs
  | .nil => rfl
  | .cons x tl => by
    have hx := filterVal_id_aux cfg rules h x
    have htl := filterElems_id_aux cfg rules h tl
    simp only [filterElems, hx, htl]
    cases hp : x.isEmptyC <;> simp [hp]

end

mutual

theorem filterVal_idem_aux (cfg : EngineConfig) (rules : List (String × RuleEntry)) :
    (v : JsVal) → filterVal cfg rules (filterVal cfg rules v) = filterVal cfg rules v
  | .str _ => rfl
  | .num _ => rfl
  | .bool _ => rfl
  | .null => rfl
  | .arr xs => by
    simp only [filterVal]
    exact congrArg JsVal.arr (filterElems_idem_aux cfg rules xs)
  | .obj fs => by
    simp only [filterVal]
    exact congrArg JsVal.obj (filterFields_idem_aux cfg rules fs)

theorem filterFields_idem_aux (cfg : EngineConfig) (rules : List (String × RuleEntry)) :
    (fs : JsObj) → filterFields cfg rules (filterFields cfg rules fs)
      = filterFields cfg rules fs
  | .nil => rfl
  | .cons k v tl => by
    have hv := filterVal_idem_aux cfg rules v
    have htl := filterFields_idem_aux cfg rules tl
    simp only [filterFields]
    by_cases hm : ruleMatched cfg rules k (filterVal cfg rules v) = true
    · rw [if_pos hm]
      exact htl
    · rw [if_neg hm]
      by_cases hp : (prunable k && (filterVal cfg rules v).isEmptyC && !v.isEmptyC) = true
      · rw [if_pos hp]
        exact htl
      · rw [if_neg hp]
        simp only [filterFields, hv, htl]
        rw [if_neg hm]
        have hp2 : (prunable k && (filterVal cfg rules v).isEmptyC
            && !(filterVal cfg rules v).isEmptyC) = false := by
          cases hE : (filterVal cfg rules v).isEmptyC <;> simp [hE]
        simp [hp2]

theorem filterElems_idem_aux (cfg : EngineConfig) (rules : List (String × RuleEntry)) :
    (xs : JsArr) → filterElems cfg rules (filterElems cfg rules xs)
      = filterElems cfg rules xs
  | .nil => rfl
  | .cons x tl => by
    have hx := filterVal_idem_aux cfg rules x
    have htl := filterElems_idem_aux cfg rules tl
    simp only [filterElems]
    by_cases hp : ((filterVal cfg rules x).isEmptyC && !x.isEmptyC) = true
    · rw [if_pos hp]
      exact htl
    · rw [if_neg hp]
      simp only [filterElems, hx, htl]
      have hp2 : ((filterVal cfg rules x).isEmptyC
          && !(filterVal cfg rules x).isEmptyC) = false := by
        cases hE : (filterVal cfg rules x).isEmptyC <;> simp [hE]
      simp [hp2]

end

/-- C4: filtering is idempotent — running the engine a second time over an
already-filtered tree with the same compiled configuration changes
nothing. -/
theorem blocktube_c4 (cfg : EngineConfig) (rules : List (String × RuleEntry)) (t : JsVal) :
    filterVal cfg rules (filterVal cfg rules t) = filterVal cfg rules t :=
  filterVal_idem_aux cfg rules t

/-- C3: with zero entries in every text category, no duration bound, no
percent-watched threshold, every toggle off and no enabled custom predicate,
the engine reports nothing to filter (isDataEmpty) and the filtered tree is
structurally identical to the input, for every rule table and document. -/
theorem blocktube_c3 (cfg : EngineConfig)
    (h1 : cfg.videoId = []) (h2 : cfg.channelId = []) (h3 : cfg.channelName = [])
    (h4 : cfg.title = []) (h5 : cfg.comment = []) (h6 : cfg.description = [])
    (h7 : cfg.vidLengthMin = none) (h8 : cfg.vidLengthMax = none)
    (h9 : cfg.percentWatchedHide = none)
    (h10 : cfg.shorts = false) (h11 : cfg.movies = false) (h12 : cfg.mixes = false)
    (h13 : cfg.trending = false)
    (h14 : cfg.enableJs = false ∨ cfg.jsFilter = none) :
    isDataEmpty cfg = true ∧
      ∀ (rules : List (String × RuleEntry)) (t : JsVal), filterVal cfg rules t = t := by
  constructor
  · rcases h14 with h14 | h14 <;>
      simp [isDataEmpty, h1, h2, h3, h4, h5, h6, h7, h8, h9, h10, h11, h12, h13, h14]
  · intro rules t
    exact filterVal_id_aux cfg rules
      (matchesNode_false_of cfg h1 h2 h3 h4 h5 h6 h7 h8 h9 h10 h11 h12 h13
        (jsMatch_false cfg h14)) t

/-- Witness for C3 at the all-off configuration and a concrete document. -/
theorem blocktube_c3_witness :
    isDataEmpty emptyEngineConfig = true ∧
      filterVal emptyEngineConfig mainRules sampleDoc = sampleDoc := by
  have h := blocktube_c3 emptyEngineConfig rfl rfl rfl rfl rfl rfl rfl rfl rfl rfl rfl rfl
    rfl (Or.inl rfl)
  exact ⟨h.1, h.2 mainRules sampleDoc⟩

/-- C7: a configured and enabled custom predicate that always raises is
caught and treated as no match, so no node is removed and the whole tree is
unchanged (fail-open). -/
theorem blocktube_c7 (f : Candidate → String → Except Unit Bool)
    (hf : ∀ cand key, f cand key = Except.error ()) :
    (∀ cand key, jsMatch (jsOnlyConfig f) cand key = false) ∧
      ∀ (rules : List (String × RuleEntry)) (t : JsVal),
        filterVal (jsOnlyConfig f) rules t = t := by
  have hjs : ∀ cand key, jsMatch (jsOnlyConfig f) cand key = false := by
    intro cand key
    show (match f cand key with
      | Except.ok b => b
      | Except.error _ => false) = false
    rw [hf cand key]
  refine ⟨hjs, fun rules t => filterVal_id_aux _ rules
    (matchesNode_false_of _ rfl rfl rfl rfl rfl rfl rfl rfl rfl rfl rfl rfl rfl hjs) t⟩

/-- Witness for C7: the always-throwing predicate at a concrete node. -/
theorem blocktube_c7_witness :
    jsMatch (jsOnlyConfig throwingPredicate)
        (extractCandidate videoRendererRule jsSampleDoc) "videoRenderer" = false ∧
      filterVal (jsOnlyConfig throwingPredicate) mainRules jsSampleDoc = jsSampleDoc := by
  have h := blocktube_c7 throwingPredicate (fun _ _ => rfl)
  exact ⟨h.1 _ _, h.2 mainRules jsSampleDoc⟩

theorem matchesNode_durationOnly (lo hi : Option Int) (mode : VidMode)
    (rule : RuleEntry) (key : String) (v : JsVal) :
    matchesNode (durationOnlyConfig lo hi mode) rule key v
      = durationMatch (durationOnlyConfig lo hi mode)
          (extractCandidate rule v).vidLength := by
  have e1 : (durationOnlyConfig lo hi mode).videoId = [] := rfl
  have e2 : (durationOnlyConfig lo hi mode).channelId = [] := rfl
  have e3 : (durationOnlyConfig lo hi mode).channelName = [] := rfl
  have e4 : (durationOnlyConfig lo hi mode).title = [] := rfl
  have e5 : (durationOnlyConfig lo hi mode).comment = [] := rfl
  have e6 : (durationOnlyConfig lo hi mode).description = [] := rfl
  simp only [matchesNode, e1, e2, e3, e4, e5, e6, textMatch_nil,
    percentMatch_none (durationOnlyConfig lo hi mode) rfl,
    toggleMatch_off (durationOnlyConfig lo hi mode) rfl rfl rfl rfl,
    jsMatch_false (durationOnlyConfig lo hi mode) (Or.inl rfl),
    Bool.or_false, Bool.false_or]

theorem durationMatch_configured (cfg : EngineConfig)
    (h : cfg.vidLengthMin.isSome = true ∨ cfg.vidLengthMax.isSome = true) (d : Int) :
    durationMatch cfg (some d)
      = vidLengthDecision cfg.vidLengthMin cfg.vidLengthMax cfg.vidLengthType d := by
  have hg : (cfg.vidLengthMin.isNone && cfg.vidLengthMax.isNone) = false := by
    rcases h with h | h
    · cases hm : cfg.vidLengthMin with
      | none => rw [hm] at h; simp at h
      | some a => simp [hm]
    · cases hm : cfg.vidLengthMax with
      | none => rw [hm] at h; simp at h
      | some a => simp [hm]
  unfold durationMatch vidLengthDecision
  rw [hg]
  rfl

/-- C2: with a configured duration range as the only active rule, the engine
removes a videoRenderer node whose extracted duration parses to d exactly
when d is inside the range in block mode, and exactly when d is outside the
range in allow mode. -/
theorem blocktube_c2 (lo hi : Option Int) (mode : VidMode) (V : JsVal) (d : Int)
    (hcfg : lo.isSome = true ∨ hi.isSome = true)
    (hd : (extractCandidate videoRendererRule
        (filterVal (durationOnlyConfig lo hi mode) mainRules V)).vidLength = some d) :
    objHasKey (filterVal (durationOnlyConfig lo hi mode) mainRules (vrWrap V))
        "videoRenderer" = !(vidLengthDecision lo hi mode d) := by
  have hrm : ruleMatched (durationOnlyConfig lo hi mode) mainRules "videoRenderer"
      (filterVal (durationOnlyConfig lo hi mode) mainRules V)
      = vidLengthDecision lo hi mode d := by
    show matchesNode (durationOnlyConfig lo hi mode) videoRendererRule "videoRenderer"
        (filterVal (durationOnlyConfig lo hi mode) mainRules V)
      = vidLengthDecision lo hi mode d
    rw [matchesNode_durationOnly, hd,
      durationMatch_configured (durationOnlyConfig lo hi mode) hcfg]
    rfl
  have hpr : prunable "videoRenderer" = false := by decide
  show objHasKey (JsVal.obj (filterFields (durationOnlyConfig lo hi mode) mainRules
      (JsObj.cons "videoRenderer" V JsObj.nil))) "videoRenderer"
      = !(vidLengthDecision lo hi mode d)
  simp only [filterFields, hrm, hpr]
  cases hdec : vidLengthDecision lo hi mode d with
  | false => simp [hdec, objHasKey, objKeyMem, filterFields]
  | true => simp [hdec, objHasKey, objKeyMem, filterFields]

/-- Witness for C2 in block mode with range 60..120: the 90-second item is
removed and the 180-second item is kept. -/
theorem blocktube_c2_witness :
    objHasKey (filterVal (durationOnlyConfig (some 60) (some 120) VidMode.block)
        mainRules (vrWrap (durationVideo "1:30"))) "videoRenderer" = false ∧
      objHasKey (filterVal (durationOnlyConfig (some 60) (some 120) VidMode.block)
        mainRules (vrWrap (durationVideo "3:00"))) "videoRenderer" = true := by
  constructor
  · exact (blocktube_c2 (some 60) (some 120) VidMode.block (durationVideo "1:30") 90
      (Or.inl rfl) (by decide)).trans (by decide)
  · exact (blocktube_c2 (some 60) (some 120) VidMode.block (durationVideo "3:00") 180
      (Or.inl rfl) (by decide)).trans (by decide)

theorem transformCategory_append (a b : List (String × String)) :
    transformCategory (a ++ b) = transformCategory a ++ transformCategory b := by
  induction a with
  | nil => rfl
  | cons x xs ih => simp [transformCategory, ih]

/-- C6: a malformed entry in a category's rule list is caught at compile
time and dropped (left as an unusable hole), while every other entry of the
category still compiles into a usable matcher — one bad pattern never
disables the whole category. -/
theorem blocktube_c6 (pre post : List (String × String)) (e : String × String)
    (he : regexSyntaxOk e.1 = false) :
    transformCategory (pre ++ e :: post)
        = transformCategory pre ++ none :: transformCategory post ∧
      ∀ x ∈ pre ++ post, regexSyntaxOk x.1 = true →
        toMatcher x = some ⟨x.1, removeGlobalFlag x.2⟩ := by
  constructor
  · rw [transformCategory_append]
    show transformCategory pre ++ toMatcher e :: transformCategory post
        = transformCategory pre ++ none :: transformCategory post
    have hme : toMatcher e = none := by
      unfold toMatcher
      rw [he]
      rfl
    rw [hme]
  · intro x _ hvalid
    unfold toMatcher
    rw [hvalid]
    rfl

/-- Witness for C6: one malformed and one valid entry. -/
theorem blocktube_c6_witness :
    transformCategory [("[invalid", ""), ("good", "i")]
      = [none, some (Matcher.mk "good" "i")] := by
  have h := blocktube_c6 [] [("good", "i")] ("[invalid", "") (by decide)
  exact h.1.trans (by decide)

theorem filter_ne_g_contains (l : List Char) :
    (l.filter (fun c => decide (c ≠ 'g'))).contains 'g' = false := by
  induction l with
  | nil => rfl
  | cons c cs ih =>
    by_cases h : c = 'g'
    · simp [List.filter_cons, h, ih]
    · simp [List.filter_cons, h, ih, List.contains_cons, Ne.symm h]

/-- C10: transformToRegExp turns every valid compiled (pattern, flags) pair
into a matcher whose pattern is kept and whose flag string has the global
flag removed (so it never carries the cross-call state the global flag
induces), and it maps each entry of a category list independently. -/
theorem blocktube_c10 (p f : String) (h : regexSyntaxOk p = true) :
    toMatcher (p, f) = some ⟨p, removeGlobalFlag f⟩ ∧
      (removeGlobalFlag f).data.contains 'g' = false ∧
      ∀ es : List (String × String), transformCategory es = es.map toMatcher := by
  refine ⟨?_, ?_, ?_⟩
  · unfold toMatcher
    rw [h]
    rfl
  · exact filter_ne_g_contains f.data
  · intro es
    induction es with
    | nil => rfl
    | cons e rest ih => simp [transformCategory, ih]

/-- Witness for C10: flags gi become i, which carries no global flag. -/
theorem blocktube_c10_witness :
    toMatcher ("test", "gi") = some (Matcher.mk "test" "i") ∧
      ("i" : String).data.contains 'g' = false := by
  have h := blocktube_c10 "test" "gi" (by decide)
  refine ⟨h.1.trans (by decide), ?_⟩
  have h2 := h.2.1
  rwa [show removeGlobalFlag "gi" = "i" from by decide] at h2

/-- Witness for C8: a three-space entry compiles to the anchored-empty
identifier pattern. -/
theorem blocktube_c8_witness :
    compileRegex (some ["   "]) "videoId" = some [("^$", "")] :=
  blocktube_c8 "   " (by decide) (by decide) "videoId" (Or.inl rfl)

/-- Witness for C9: an entry with whitespace before the two slashes is
compiled (as the ordinary compilation of its trimmed text), not skipped. -/
theorem blocktube_c9_witness :
    compileRegex (some ["  // note"]) "title"
      = some [compileEntry "title" "// note"] := by
  have h := blocktube_c9 "  // note" (by decide) (by decide) "title"
  exact h.trans (by decide)
